import Mathlib

/-!
Shallow embedding of `mssql_client_derive` (src/src/lib.rs), a derive macro
that turns a named-field struct into (a) a column-list string and (b) a
row-to-record constructor.  The embedding follows the source structure:
`SqlAttr` parsing, `SqlField` classification, `Struct::from_derive_input`
shape validation, and the `sql` entry point that emits the two artifacts.
External collaborators (`syn` token trees and spans, the `inflector` case
conversion, the runtime `Row::get`) are modelled at the interface the source
uses them through.
-/

deriving instance DecidableEq for Except

namespace MssqlClientDerive

/-- A source position.  `proc_macro2::Span` is opaque; we model spans as
natural numbers so error attribution can be stated exactly. -/
abbrev Span := Nat

/-- `syn::Ident`: an identifier token with its span. -/
structure Ident where
  name : String
  span : Span
deriving DecidableEq, Repr

/-- `syn::LitStr`: a string literal token (its value) with its span. -/
structure LitStr where
  value : String
  span : Span
deriving DecidableEq, Repr

/-- `syn::Error`: a compile-time diagnostic carrying the span it is attributed
to and its message.  `to_compile_error` turns it into the emitted diagnostic;
in this embedding the erroneous outcome is the `Except.error` branch. -/
structure SynError where
  span : Span
  msg : String
deriving DecidableEq, Repr

/-- The token tree attached to a `#[sql(...)]`-style attribute, as far as
`<SqlAttr as Parse>::parse` inspects it: a parenthesized group holding a
keyword identifier, optionally followed by `= payload`.  A payload is either
a string literal (which is also a valid expression) or other expression
tokens kept as opaque source text with the span where they start.
`other` stands for token trees that are not a parenthesized group starting
with an identifier; `syn` rejects those before the keyword dispatch. -/
inductive AttrTokens where
  | bare (kw : Ident)
  | eqStr (kw : Ident) (s : LitStr)
  | eqExpr (kw : Ident) (e : String) (payloadSpan : Span)
  | other (span : Span)
deriving DecidableEq, Repr

/-- The keyword identifier of an attribute's parenthesized content, when the
content has the `( ident ... )` shape. -/
def AttrTokens.keyword : AttrTokens → Option Ident
  | .bare kw => some kw
  | .eqStr kw _ => some kw
  | .eqExpr kw _ _ => some kw
  | .other _ => none

/-- `syn::Attribute`: a path (as its segment strings) plus the trailing
token tree. -/
structure Attribute where
  path : List String
  tokens : AttrTokens
deriving DecidableEq, Repr

/-- `syn::Field` restricted to what the source reads: the field identifier
(always present for `Fields::Named`, which is the only shape that reaches
`SqlField::new_from_field`) and the attribute list. -/
structure Field where
  ident : Ident
  attrs : List Attribute
deriving DecidableEq, Repr

/-- `syn::Fields`: named fields, tuple-style unnamed fields, or a unit
struct body. -/
inductive Fields where
  | Named (fields : List Field)
  | Unnamed (arity : Nat)
  | Unit
deriving DecidableEq, Repr

/-- `syn::Data`: the body of a `DeriveInput`. -/
inductive Data where
  | Struct (fields : Fields)
  | Enum
  | Union
deriving DecidableEq, Repr

/-- `syn::DeriveInput`: the type name plus its body. -/
structure DeriveInput where
  ident : Ident
  data : Data
deriving DecidableEq, Repr

/-- `enum SqlAttr` (src/src/lib.rs:190-194).  The expression payloads are
opaque source text, spliced verbatim by the generator. -/
inductive SqlAttr where
  | Default
  | Expr (e : String)
  | Name (n : LitStr)
deriving DecidableEq, Repr

/-- The source text of a string literal used as an expression (the `expr =`
arm accepts any expression, including a string literal). -/
def litStrExprSrc (v : String) : String := "\"" ++ v ++ "\""

/-- `<SqlAttr as Parse>::parse` (src/src/lib.rs:215-240): read the
parenthesized content, parse the leading keyword identifier, and dispatch on
its text.  `default` takes no payload, `expr` takes `= <expression>`, `name`
takes `= <string literal>`; any other keyword fails with
"Expect `default`, `expr`, or `name`" attributed to the keyword's span.
Payload-shape failures inside the `default`/`expr`/`name` arms are produced
by `syn` itself; their messages are `syn`'s and their spans are modelled
approximately (no claim depends on them). -/
def SqlAttr.parseTokens : AttrTokens → Except SynError SqlAttr
  | .other sp => .error ⟨sp, "expected parentheses"⟩
  | .bare kw =>
      if kw.name = "default" then .ok .Default
      else if kw.name = "expr" then .error ⟨kw.span, "expected `=`"⟩
      else if kw.name = "name" then .error ⟨kw.span, "expected `=`"⟩
      else .error ⟨kw.span, "Expect `default`, `expr`, or `name`"⟩
  | .eqStr kw s =>
      if kw.name = "default" then .error ⟨s.span, "unexpected token"⟩
      else if kw.name = "expr" then .ok (.Expr (litStrExprSrc s.value))
      else if kw.name = "name" then .ok (.Name s)
      else .error ⟨kw.span, "Expect `default`, `expr`, or `name`"⟩
  | .eqExpr kw e psp =>
      if kw.name = "default" then .error ⟨psp, "unexpected token"⟩
      else if kw.name = "expr" then .ok (.Expr e)
      else if kw.name = "name" then .error ⟨psp, "expected string literal"⟩
      else .error ⟨kw.span, "Expect `default`, `expr`, or `name`"⟩

/-- `SqlAttr::try_new` (src/src/lib.rs:197-208): join the attribute path
segments with `::`; `sql` and `sql_derive::sql` are recognized and their
tokens parsed, every other path yields `None` (the attribute is skipped). -/
def SqlAttr.try_new (a : Attribute) : Option (Except SynError SqlAttr) :=
  let nm := String.intercalate "::" a.path
  if nm = "sql" then some (SqlAttr.parseTokens a.tokens)
  else if nm = "sql_derive::sql" then some (SqlAttr.parseTokens a.tokens)
  else none

/-- `enum SqlField` (src/src/lib.rs:153-157): the classified field. -/
inductive SqlField where
  | Expr (ident : Ident) (expr : String)
  | SqlNamed (ident : Ident) (name : LitStr)
  | SqlUnnamed (ident : Ident)
deriving DecidableEq, Repr

/-- The expression text `parse(quote!(Default::default()).into())` splices
for a `#[sql(default)]` field (src/src/lib.rs:171). -/
def defaultExprSrc : String := "Default::default()"

/-- `SqlField::new_from_field` (src/src/lib.rs:160-177): take the FIRST
recognized sql attribute (`.filter_map(SqlAttr::try_new).next()`) and
classify the field from it; later attributes are never consulted. -/
def SqlField.new_from_field (f : Field) : Except SynError SqlField :=
  match (f.attrs.filterMap SqlAttr.try_new).head? with
  | some (Except.ok (SqlAttr.Expr e)) => .ok (.Expr f.ident e)
  | some (Except.ok SqlAttr.Default) => .ok (.Expr f.ident defaultExprSrc)
  | some (Except.ok (SqlAttr.Name n)) => .ok (.SqlNamed f.ident n)
  | some (Except.error e) => .error e
  | none => .ok (.SqlUnnamed f.ident)

/-- Split a character list at underscores (helper for the `to_pascal_case`
model). -/
def splitOnUnderscore : List Char → List (List Char)
  | [] => [[]]
  | c :: cs =>
      if c = '_' then [] :: splitOnUnderscore cs
      else
        match splitOnUnderscore cs with
        | [] => [[c]]
        | p :: ps => (c :: p) :: ps

/-- Uppercase the first character of a word and lowercase the rest (helper
for the `to_pascal_case` model). -/
def capitalizePart : List Char → List Char
  | [] => []
  | c :: cs => c.toUpper :: cs.map Char.toLower

/-- Model of `inflector`'s `to_pascal_case` (an external dependency) on the
snake_case identifiers Rust fields use: split on underscores, uppercase the
first letter of each part and lowercase the rest, e.g. `user_id ↦ UserId`. -/
def to_pascal_case (s : String) : String :=
  String.mk
    ((((splitOnUnderscore s.toList).filter (fun p => p ≠ [])).map capitalizePart).flatten)

/-- `SqlField::sql` (src/src/lib.rs:179-187): the field's column-list entry.
`Expr` fields contribute nothing; a `SqlNamed` field contributes its literal
value VERBATIM (no brackets added, no case conversion); a `SqlUnnamed` field
contributes its identifier pascal-cased and bracket-quoted. -/
def SqlField.sql : SqlField → Option String
  | .Expr _ _ => none
  | .SqlNamed _ n => some n.value
  | .SqlUnnamed ident => some ("[" ++ to_pascal_case ident.name ++ "]")

/-- The filter used to build `row_gets` (src/src/lib.rs:78-81): `Expr` fields
yield nothing, column fields yield their identifier. -/
def SqlField.colIdent : SqlField → Option Ident
  | .Expr _ _ => none
  | .SqlNamed ident _ => some ident
  | .SqlUnnamed ident => some ident

/-- Whether a classified field denotes a real column, i.e. participates in
the column list and in positional extraction (the `SqlNamed`/`SqlUnnamed`
arms of the two `filter_map`s in `sql`). -/
def SqlField.isColumn (sf : SqlField) : Bool :=
  (SqlField.colIdent sf).isSome

/-- The identifier of a classified field (every variant carries one). -/
def SqlField.fieldIdent : SqlField → Ident
  | .Expr ident _ => ident
  | .SqlNamed ident _ => ident
  | .SqlUnnamed ident => ident

/-- The column-list entry of a column field (`""` for a computed field,
which contributes no entry). -/
def SqlField.sqlEntry (sf : SqlField) : String :=
  (SqlField.sql sf).getD ""

/-- `struct Struct` (src/src/lib.rs:114-117). -/
structure Struct where
  fields : List SqlField
  name : Ident
deriving DecidableEq, Repr

/-- The loop body of `Struct::from_derive_input` (src/src/lib.rs:136-139):
classify every named field in declaration order; the `?` on
`SqlField::new_from_field` makes the first failure abort the whole build. -/
def classifyFields : List Field → Except SynError (List SqlField)
  | [] => .ok []
  | f :: fs =>
      match SqlField.new_from_field f with
      | .error e => .error e
      | .ok sf =>
          match classifyFields fs with
          | .error e => .error e
          | .ok sfs => .ok (sf :: sfs)

/-- `Struct::from_derive_input` (src/src/lib.rs:120-150): only a struct with
named fields is accepted; an enum or union fails with "Only struct are
supported by sql derive." and a tuple/unit struct with "Only struct with
named fields are supported by sql derive.", both attributed to the type
name's span. -/
def Struct.from_derive_input (input : DeriveInput) : Except SynError Struct :=
  match input.data with
  | .Struct fs =>
      match fs with
      | .Named fields =>
          match classifyFields fields with
          | .error e => .error e
          | .ok sqlFields => .ok ⟨sqlFields, input.ident⟩
      | _ =>
          .error ⟨input.ident.span,
            "Only struct with named fields are supported by sql derive."⟩
  | _ => .error ⟨input.ident.span, "Only struct are supported by sql derive."⟩

/-- One emitted positional extraction
`#ident: row.get(#index).map_err(|e| failure::format_err!(#error, #field, e))?`
(src/src/lib.rs:83-88).  `fieldLit` is the `LitStr` made from the identifier
text, `index` the `LitInt` assigned by `enumerate()`. -/
structure RowGet where
  ident : Ident
  fieldLit : String
  index : Nat
deriving DecidableEq, Repr

/-- One emitted computed-field assignment `#ident: #expr`
(src/src/lib.rs:90-93). -/
structure ExprGet where
  ident : Ident
  expr : String
deriving DecidableEq, Repr

/-- The two artifacts emitted by the derive for one struct: the
`sql_fields_str` constant and the pieces of the `from_row` body. -/
structure Generated where
  name : Ident
  sql_fields : String
  row_gets : List RowGet
  expr_gets : List ExprGet
deriving DecidableEq, Repr

/-- The filter used to build `expr_gets` (src/src/lib.rs:90-93). -/
def SqlField.exprGet : SqlField → Option ExprGet
  | .Expr ident e => some ⟨ident, e⟩
  | .SqlNamed _ _ => none
  | .SqlUnnamed _ => none

/-- The artifact-building half of the `sql` entry point
(src/src/lib.rs:72-111), applied to the classified field list:
`sql_fields` is the comma-join of the per-field entries
(`.filter_map(|f| f.sql()).join(",")`), `row_gets` enumerates the column
subset starting at 0, and `expr_gets` is the computed subset. -/
def generate (nm : Ident) (sfs : List SqlField) : Generated :=
  ⟨nm,
   String.intercalate "," (sfs.filterMap SqlField.sql),
   (sfs.filterMap SqlField.colIdent).enum.map (fun p => RowGet.mk p.2 p.2.name p.1),
   sfs.filterMap SqlField.exprGet⟩

/-- The `sql` proc-macro entry point (src/src/lib.rs:62-112): validate the
shape, then emit the two artifacts from the single classified field list.
On failure the diagnostic replaces the artifacts (`e.to_compile_error()`),
modelled by the `Except.error` branch. -/
def sql (input : DeriveInput) : Except SynError Generated :=
  match Struct.from_derive_input input with
  | .error e => .error e
  | .ok s => .ok (generate s.name s.fields)

/-- Right-hand side of one field assignment in the emitted `Self { ... }`
literal: a positional row extraction or a verbatim spliced expression. -/
inductive Rhs where
  | rowGet (index : Nat) (fieldLit : String)
  | spliced (e : String)
deriving DecidableEq, Repr

/-- The field assignments of the emitted `Self { ... }` literal, in emitted
order: `#(#row_gets,)* #(#expr_gets,)*` (src/src/lib.rs:105-106) — all row
extractions first, then all spliced expressions. -/
def Generated.assigns (g : Generated) : List (Ident × Rhs) :=
  g.row_gets.map (fun rg => (rg.ident, Rhs.rowGet rg.index rg.fieldLit))
    ++ g.expr_gets.map (fun eg => (eg.ident, Rhs.spliced eg.expr))

/-- The runtime message produced by
`failure::format_err!("Read \x60\x7b\x7d\x60 failed; \x7b\x7d", field, e)`
when the extraction of `field` fails with underlying error `e`
(src/src/lib.rs:84-87). -/
def formatReadError (field errMsg : String) : String :=
  "Read `" ++ field ++ "` failed; " ++ errMsg

/-- The value a constructed record holds for one field: either a value read
from the row or the result of a verbatim spliced expression (kept opaque as
its source text, since the core never interprets it). -/
inductive FieldValue (α : Type) where
  | fromRow (v : α)
  | spliced (e : String)
deriving DecidableEq, Repr

/-- Runtime evaluation of the emitted row extractions, in emitted order.
Each `row.get(#index)` is modelled by `row index`; `map_err(...)?` wraps the
first failure with `formatReadError` on the field literal and aborts — the
remaining extractions are never evaluated. -/
def evalRowGets (row : Nat → Except String α) :
    List RowGet → Except String (List (String × FieldValue α))
  | [] => .ok []
  | rg :: rgs =>
      match row rg.index with
      | .error e => .error (formatReadError rg.fieldLit e)
      | .ok v =>
          match evalRowGets row rgs with
          | .error e => .error e
          | .ok l => .ok ((rg.ident.name, FieldValue.fromRow v) :: l)

/-- Semantics of the generated `from_row` (src/src/lib.rs:103-108): run the
row extractions in emitted order (fail-fast through `?`), then attach the
spliced computed fields, which read nothing from the row.  A failure is
returned to the caller as the `Except.error` value — no partial record
exists and nothing panics. -/
def Generated.fromRow (g : Generated) (row : Nat → Except String α) :
    Except String (List (String × FieldValue α)) :=
  match evalRowGets row g.row_gets with
  | .error e => .error e
  | .ok l =>
      .ok (l ++ g.expr_gets.map (fun eg => (eg.ident.name, FieldValue.spliced eg.expr)))

/-! ### Concrete record descriptions used as test inputs -/

/-- The field `user_id` annotated `#[sql(name = "UID")]`. -/
def uidField : Field :=
  ⟨⟨"user_id", 10⟩, [⟨["sql"], .eqStr ⟨"name", 11⟩ ⟨"UID", 12⟩⟩]⟩

/-- The record `{ user_id(name = "UID") }`. -/
def uidInput : DeriveInput := ⟨⟨"MyRow", 1⟩, .Struct (.Named [uidField])⟩

/-- Field `a`, no attributes. -/
def fieldA : Field := ⟨⟨"a", 20⟩, []⟩

/-- Field `b` annotated `#[sql(default)]`. -/
def fieldB : Field := ⟨⟨"b", 21⟩, [⟨["sql"], .bare ⟨"default", 22⟩⟩]⟩

/-- Field `c`, no attributes. -/
def fieldC : Field := ⟨⟨"c", 23⟩, []⟩

/-- The record `{ a, b(default), c }`. -/
def abcInput : DeriveInput :=
  ⟨⟨"Abc", 2⟩, .Struct (.Named [fieldA, fieldB, fieldC])⟩

/-- A field whose directive is `#[sql(foo)]` — an unrecognized keyword. -/
def fooField : Field := ⟨⟨"x", 30⟩, [⟨["sql"], .bare ⟨"foo", 31⟩⟩]⟩

/-- A record whose single field carries the `(foo)` directive. -/
def fooInput : DeriveInput := ⟨⟨"Bad", 3⟩, .Struct (.Named [fooField])⟩

/-- A derive input that is an enum, not a struct. -/
def enumInput : DeriveInput := ⟨⟨"Shape", 4⟩, .Enum⟩

/-- A valid `#[sql(name = "UID")]` attribute. -/
def goodAttr : Attribute := ⟨["sql"], .eqStr ⟨"name", 40⟩ ⟨"UID", 41⟩⟩

/-- A malformed recognized attribute `#[sql(foo)]`. -/
def badAttr : Attribute := ⟨["sql"], .bare ⟨"foo", 42⟩⟩

/-- A field carrying a valid directive followed by a malformed one. -/
def twoAttrField : Field := ⟨⟨"y", 43⟩, [goodAttr, badAttr]⟩

/-- The record `{ id, name, others(default) }` from the crate's doc example. -/
def docInput : DeriveInput :=
  ⟨⟨"MyRowDoc", 5⟩, .Struct (.Named
    [⟨⟨"id", 50⟩, []⟩, ⟨⟨"name", 51⟩, []⟩,
     ⟨⟨"others", 52⟩, [⟨["sql"], .bare ⟨"default", 53⟩⟩]⟩])⟩

/-- What `sql` generates for `uidInput`. -/
def uidGenerated : Generated :=
  ⟨⟨"MyRow", 1⟩, "UID", [⟨⟨"user_id", 10⟩, "user_id", 0⟩], []⟩

/-- The classified fields of `abcInput`. -/
def abcSfs : List SqlField :=
  [.SqlUnnamed ⟨"a", 20⟩, .Expr ⟨"b", 21⟩ defaultExprSrc, .SqlUnnamed ⟨"c", 23⟩]

/-- What `sql` generates for `abcInput`. -/
def abcGenerated : Generated :=
  ⟨⟨"Abc", 2⟩, "[A],[C]",
   [⟨⟨"a", 20⟩, "a", 0⟩, ⟨⟨"c", 23⟩, "c", 1⟩],
   [⟨⟨"b", 21⟩, defaultExprSrc⟩]⟩

/-- Two fields without any attribute. -/
def plainFields : List Field := [⟨⟨"id", 60⟩, []⟩, ⟨⟨"user_id", 61⟩, []⟩]

/-- A record whose fields carry no directive at all. -/
def plainInput : DeriveInput := ⟨⟨"Plain", 6⟩, .Struct (.Named plainFields)⟩

/-! ### Helper lemmas about the pipeline -/

/-- A field with no recognized sql attribute classifies as `SqlUnnamed`. -/
theorem new_from_field_no_attr (f : Field)
    (h : f.attrs.filterMap SqlAttr.try_new = []) :
    SqlField.new_from_field f = Except.ok (SqlField.SqlUnnamed f.ident) := by
  unfold SqlField.new_from_field
  rw [h]
  rfl

/-- Classification of an all-unannotated field list succeeds and yields one
`SqlUnnamed` per field, in order. -/
theorem classifyFields_all_unnamed (fs : List Field)
    (h : ∀ f ∈ fs, f.attrs.filterMap SqlAttr.try_new = []) :
    classifyFields fs =
      Except.ok (fs.map (fun f => SqlField.SqlUnnamed f.ident)) := by
  induction fs with
  | nil => rfl
  | cons f fs ih =>
      have hf := new_from_field_no_attr f (h f (by simp))
      have ih2 := ih (fun g hg => h g (List.mem_cons_of_mem f hg))
      simp [classifyFields, hf, ih2]

/-- The first field whose classification fails aborts the whole
classification with that field's error. -/
theorem classifyFields_append_error (pre : List Field) (f : Field)
    (post : List Field) (e : SynError)
    (hpre : ∀ p ∈ pre, ∃ sf, SqlField.new_from_field p = Except.ok sf)
    (hf : SqlField.new_from_field f = Except.error e) :
    classifyFields (pre ++ f :: post) = Except.error e := by
  induction pre with
  | nil => simp [classifyFields, hf]
  | cons p pre ih =>
      obtain ⟨sf, hsf⟩ := hpre p (by simp)
      have ih2 := ih (fun q hq => hpre q (by simp [hq]))
      simp [classifyFields, hsf, ih2]

/-- Successful classification decomposes along an append: each part
classifies on its own and the middle field contributes one entry. -/
theorem classifyFields_append_ok (pre : List Field) (f : Field)
    (post : List Field) (sfs : List SqlField)
    (h : classifyFields (pre ++ f :: post) = Except.ok sfs) :
    ∃ spre sf spost, sfs = spre ++ sf :: spost ∧
      classifyFields pre = Except.ok spre ∧
      SqlField.new_from_field f = Except.ok sf ∧
      classifyFields post = Except.ok spost := by
  induction pre generalizing sfs with
  | nil =>
      rw [List.nil_append] at h
      cases hf : SqlField.new_from_field f with
      | error e => simp [classifyFields, hf] at h
      | ok sf =>
          cases hpost : classifyFields post with
          | error e => simp [classifyFields, hf, hpost] at h
          | ok spost =>
              simp only [classifyFields, hf, hpost] at h
              injection h with h2
              subst h2
              exact ⟨[], sf, spost, rfl, rfl, rfl, rfl⟩
  | cons p pre ih =>
      rw [List.cons_append] at h
      cases hp : SqlField.new_from_field p with
      | error e => simp [classifyFields, hp] at h
      | ok sp =>
          cases hrest : classifyFields (pre ++ f :: post) with
          | error e => simp [classifyFields, hp, hrest] at h
          | ok srest =>
              simp only [classifyFields, hp, hrest] at h
              injection h with h2
              subst h2
              obtain ⟨spre, sf, spost, hsplit, hpre2, hf2, hpost2⟩ := ih srest hrest
              refine ⟨sp :: spre, sf, spost, by simp [hsplit], ?_, hf2, hpost2⟩
              simp [classifyFields, hp, hpre2]

/-- Unfolding `sql` on a named-field struct whose classification succeeds. -/
theorem sql_named_ok (tyName : Ident) (fs : List Field) (sfs : List SqlField)
    (hc : classifyFields fs = Except.ok sfs) :
    sql ⟨tyName, Data.Struct (Fields.Named fs)⟩ =
      Except.ok (generate tyName sfs) := by
  simp [sql, Struct.from_derive_input, hc]

/-- Inversion of `sql` on a named-field struct. -/
theorem sql_named_ok_inv (tyName : Ident) (fs : List Field) (g : Generated)
    (hg : sql ⟨tyName, Data.Struct (Fields.Named fs)⟩ = Except.ok g) :
    ∃ sfs, classifyFields fs = Except.ok sfs ∧ g = generate tyName sfs := by
  cases hc : classifyFields fs with
  | error e => simp [sql, Struct.from_derive_input, hc] at hg
  | ok sfs =>
      refine ⟨sfs, rfl, ?_⟩
      rw [sql_named_ok tyName fs sfs hc] at hg
      cases hg
      rfl

/-- Inversion of `sql` on an arbitrary input. -/
theorem sql_ok_inv (input : DeriveInput) (g : Generated)
    (hg : sql input = Except.ok g) :
    ∃ s, Struct.from_derive_input input = Except.ok s ∧
      g = generate s.name s.fields := by
  cases h : Struct.from_derive_input input with
  | error e => simp [sql, h] at hg
  | ok s =>
      refine ⟨s, rfl, ?_⟩
      simp only [sql, h] at hg
      cases hg
      rfl

/-- In every generated extraction the emitted field literal is exactly the
identifier's text. -/
theorem row_gets_fieldLit (nm : Ident) (sfs : List SqlField) :
    ∀ rg ∈ (generate nm sfs).row_gets, rg.fieldLit = rg.ident.name := by
  intro rg hrg
  simp only [generate, List.mem_map] at hrg
  obtain ⟨p, _, hp⟩ := hrg
  rw [← hp]

/-- The column-list entries are the `sqlEntry` of the column subset, in
order. -/
theorem filterMap_sql_eq (sfs : List SqlField) :
    sfs.filterMap SqlField.sql =
      (sfs.filter SqlField.isColumn).map SqlField.sqlEntry := by
  induction sfs with
  | nil => rfl
  | cons sf sfs ih =>
      cases sf <;>
        simp [SqlField.sql, SqlField.isColumn, SqlField.colIdent,
          SqlField.sqlEntry, List.filter_cons, ih]

/-- The extraction identifiers are the identifiers of the column subset, in
order. -/
theorem filterMap_colIdent_eq (sfs : List SqlField) :
    sfs.filterMap SqlField.colIdent =
      (sfs.filter SqlField.isColumn).map SqlField.fieldIdent := by
  induction sfs with
  | nil => rfl
  | cons sf sfs ih =>
      cases sf <;>
        simp [SqlField.isColumn, SqlField.colIdent, SqlField.fieldIdent,
          List.filter_cons, ih]

/-- The computed-assignment identifiers are the identifiers of the
non-column subset, in order. -/
theorem exprGet_idents (sfs : List SqlField) :
    (sfs.filterMap SqlField.exprGet).map ExprGet.ident =
      (sfs.filter (fun sf => ! SqlField.isColumn sf)).map SqlField.fieldIdent := by
  induction sfs with
  | nil => rfl
  | cons sf sfs ih =>
      cases sf <;>
        simp [SqlField.exprGet, SqlField.isColumn, SqlField.colIdent,
          SqlField.fieldIdent, List.filter_cons, ih]

/-- The column-list entries of an all-`SqlUnnamed` classification are the
bracket-quoted pascal-cased identifiers, in order. -/
theorem filterMap_sql_unnamed (fs : List Field) :
    (fs.map (fun f => SqlField.SqlUnnamed f.ident)).filterMap SqlField.sql =
      fs.map (fun f => "[" ++ to_pascal_case f.ident.name ++ "]") := by
  induction fs with
  | nil => rfl
  | cons f fs ih => simp [SqlField.sql, ih]

/-- `enumFrom` commutes with `map` on the payload. -/
theorem enumFrom_map_pair {α β : Type} (f : α → β) (n : Nat) (l : List α) :
    (l.map f).enumFrom n = (l.enumFrom n).map (fun p => (p.1, f p.2)) := by
  induction l generalizing n with
  | nil => rfl
  | cons a l ih => simp [List.enumFrom, ih]

/-- If every extraction in the list succeeds on the row, evaluation succeeds
and produces one entry per extraction, in order. -/
theorem evalRowGets_ok {α : Type} (row : Nat → Except String α)
    (rgs : List RowGet)
    (h : ∀ rg ∈ rgs, ∃ v, row rg.index = Except.ok v) :
    ∃ l, evalRowGets row rgs = Except.ok l ∧
      l.map Prod.fst = rgs.map (fun rg => rg.ident.name) := by
  induction rgs with
  | nil => exact ⟨[], rfl, rfl⟩
  | cons rg rgs ih =>
      obtain ⟨v, hv⟩ := h rg (by simp)
      obtain ⟨l, hl, hmap⟩ := ih (fun r hr => h r (by simp [hr]))
      refine ⟨(rg.ident.name, FieldValue.fromRow v) :: l, ?_, by simp [hmap]⟩
      simp [evalRowGets, hv, hl]

/-- The first failing extraction aborts evaluation with the wrapped error of
that extraction. -/
theorem evalRowGets_error {α : Type} (row : Nat → Except String α)
    (pre : List RowGet) (rg : RowGet) (post : List RowGet) (e : String)
    (hpre : ∀ r ∈ pre, ∃ v, row r.index = Except.ok v)
    (he : row rg.index = Except.error e) :
    evalRowGets row (pre ++ rg :: post) =
      Except.error (formatReadError rg.fieldLit e) := by
  induction pre with
  | nil => simp [evalRowGets, he]
  | cons p pre ih =>
      obtain ⟨v, hv⟩ := hpre p (by simp)
      have ih2 := ih (fun r hr => hpre r (by simp [hr]))
      simp [evalRowGets, hv, ih2]

/-! ### Claim theorems -/

/-- C1 counterexample: for the record `{ user_id(name = "UID") }` the
generated column list is `"UID"`, not `"[UID]"` — `SqlField::sql` returns a
`name = "..."` literal's value without wrapping it in square brackets. -/
theorem c1_name_directive_counterexample :
    (sql uidInput).map Generated.sql_fields = Except.ok "UID" ∧
    ("UID" : String) ≠ "[UID]" :=
  ⟨rfl, by decide⟩

/-- C1 (amended): a field whose consulted sql directive is `name = n` is
classified `SqlNamed` and its column-list entry is the literal's value
verbatim — no square brackets are added and no PascalCase conversion is
applied; a record with that single field yields the column list `n.value`
itself (so `{ user_id(name = "UID") }` yields `"UID"`). -/
theorem c1_name_directive_verbatim (f : Field) (n : LitStr) (tyName : Ident)
    (g : Generated)
    (hf : (f.attrs.filterMap SqlAttr.try_new).head? =
      some (Except.ok (SqlAttr.Name n)))
    (hg : sql ⟨tyName, Data.Struct (Fields.Named [f])⟩ = Except.ok g) :
    SqlField.new_from_field f = Except.ok (SqlField.SqlNamed f.ident n) ∧
    SqlField.sql (SqlField.SqlNamed f.ident n) = some n.value ∧
    g.sql_fields = n.value := by
  have h1 : SqlField.new_from_field f = Except.ok (SqlField.SqlNamed f.ident n) := by
    unfold SqlField.new_from_field
    rw [hf]
  refine ⟨h1, rfl, ?_⟩
  obtain ⟨sfs, hc, hgen⟩ := sql_named_ok_inv tyName [f] g hg
  have hc2 : classifyFields [f] = Except.ok [SqlField.SqlNamed f.ident n] := by
    simp [classifyFields, h1]
  rw [hc2] at hc
  injection hc with h2
  subst h2
  subst hgen
  rfl

/-- C1 amended-claim witness, at the record `{ user_id(name = "UID") }`. -/
theorem c1_name_directive_verbatim_witness :
    SqlField.new_from_field uidField =
        Except.ok (SqlField.SqlNamed uidField.ident ⟨"UID", 12⟩) ∧
    SqlField.sql (SqlField.SqlNamed uidField.ident ⟨"UID", 12⟩) = some "UID" ∧
    uidGenerated.sql_fields = "UID" :=
  c1_name_directive_verbatim uidField ⟨"UID", 12⟩ ⟨"MyRow", 1⟩ uidGenerated rfl rfl

/-- C2 counterexample: for fields declared `a, b(default), c` the emitted
field assignments of the construction expression are `a, c, b` — column
fields first, then computed fields — not declaration order `a, b, c`. -/
theorem c2_assignment_order_counterexample :
    (sql abcInput).map (fun g => g.assigns.map (fun p => p.1.name)) =
      Except.ok ["a", "c", "b"] ∧
    (["a", "c", "b"] : List String) ≠ ["a", "b", "c"] :=
  ⟨rfl, by decide⟩

/-- C2 (amended): the field assignments of the generated record-construction
expression are grouped by kind: first every Column-classified field in
declaration order, then every Computed field in declaration order (the
emitted body is `#(#row_gets,)* #(#expr_gets,)*`). -/
theorem c2_assigns_grouped_by_kind (tyName : Ident) (fs : List Field)
    (sfs : List SqlField) (g : Generated)
    (hc : classifyFields fs = Except.ok sfs)
    (hg : sql ⟨tyName, Data.Struct (Fields.Named fs)⟩ = Except.ok g) :
    g.assigns.map Prod.fst =
      (sfs.filter SqlField.isColumn).map SqlField.fieldIdent ++
      (sfs.filter (fun sf => ! SqlField.isColumn sf)).map SqlField.fieldIdent := by
  obtain ⟨sfs2, hc2, hgen⟩ := sql_named_ok_inv tyName fs g hg
  rw [hc] at hc2
  injection hc2 with h2
  subst h2
  subst hgen
  simp only [Generated.assigns, generate, List.map_append, List.map_map]
  rw [← filterMap_colIdent_eq, ← exprGet_idents]
  congr 1
  exact List.enum_map_snd (List.filterMap SqlField.colIdent sfs)

/-- C2 amended-claim witness, at `{ a, b(default), c }`. -/
theorem c2_assigns_grouped_by_kind_witness :
    abcGenerated.assigns.map Prod.fst =
      (abcSfs.filter SqlField.isColumn).map SqlField.fieldIdent ++
      (abcSfs.filter (fun sf => ! SqlField.isColumn sf)).map SqlField.fieldIdent :=
  c2_assigns_grouped_by_kind ⟨"Abc", 2⟩ [fieldA, fieldB, fieldC] abcSfs
    abcGenerated rfl rfl

/-- C3: for a record all of whose fields carry no recognized sql directive,
generation succeeds and the column list equals the comma-join, in
declaration order, of the bracket-quoted PascalCase conversions of the field
identifiers; and whenever the classified fields contribute no column entry
at all, the column list is the empty string rather than an error. -/
theorem c3_unnamed_pascal_join :
    (∀ (tyName : Ident) (fs : List Field),
      (∀ f ∈ fs, f.attrs.filterMap SqlAttr.try_new = []) →
      ∃ g, sql ⟨tyName, Data.Struct (Fields.Named fs)⟩ = Except.ok g ∧
        g.sql_fields = String.intercalate ","
          (fs.map (fun f => "[" ++ to_pascal_case f.ident.name ++ "]"))) ∧
    (∀ (tyName : Ident) (fs : List Field) (sfs : List SqlField) (g : Generated),
      classifyFields fs = Except.ok sfs →
      (∀ sf ∈ sfs, SqlField.sql sf = none) →
      sql ⟨tyName, Data.Struct (Fields.Named fs)⟩ = Except.ok g →
      g.sql_fields = "") := by
  constructor
  · intro tyName fs h
    have hc := classifyFields_all_unnamed fs h
    refine ⟨generate tyName (fs.map (fun f => SqlField.SqlUnnamed f.ident)),
      sql_named_ok _ _ _ hc, ?_⟩
    simp only [generate]
    rw [filterMap_sql_unnamed]
  · intro tyName fs sfs g hc hnone hg
    obtain ⟨sfs2, hc2, hgen⟩ := sql_named_ok_inv _ _ _ hg
    rw [hc] at hc2
    injection hc2 with h2
    subst h2
    subst hgen
    simp only [generate]
    rw [List.filterMap_eq_nil_iff.mpr hnone]
    rfl

/-- C3 witness: `{ id, user_id }` (no directives) yields the pascal-cased
bracket-joined list, and the record whose one field is `b(default)` yields
the empty column list. -/
theorem c3_unnamed_pascal_join_witness :
    (∃ g, sql plainInput = Except.ok g ∧
      g.sql_fields = String.intercalate ","
        (plainFields.map (fun f => "[" ++ to_pascal_case f.ident.name ++ "]"))) ∧
    (generate ⟨"OnlyB", 7⟩ [SqlField.Expr ⟨"b", 21⟩ defaultExprSrc]).sql_fields = "" :=
  ⟨c3_unnamed_pascal_join.1 ⟨"Plain", 6⟩ plainFields (by decide),
   c3_unnamed_pascal_join.2 ⟨"OnlyB", 7⟩ [fieldB]
     [SqlField.Expr ⟨"b", 21⟩ defaultExprSrc] _ rfl (by decide) rfl⟩

/-- C4: the extractions are emitted for exactly the Column-classified
fields, indexed 0,1,2,… over that subset in declaration order, and the
column list is the join over the same filtered-and-ordered subset, so the
i-th column entry and the extraction at index i come from the same field. -/
theorem c4_column_extraction_alignment (tyName : Ident) (fs : List Field)
    (sfs : List SqlField) (g : Generated)
    (hc : classifyFields fs = Except.ok sfs)
    (hg : sql ⟨tyName, Data.Struct (Fields.Named fs)⟩ = Except.ok g) :
    ∃ cols, cols = sfs.filter SqlField.isColumn ∧
      g.sql_fields = String.intercalate "," (cols.map SqlField.sqlEntry) ∧
      g.row_gets = cols.enum.map
        (fun p => RowGet.mk (SqlField.fieldIdent p.2)
          (SqlField.fieldIdent p.2).name p.1) ∧
      g.row_gets.map RowGet.index = List.range cols.length := by
  obtain ⟨sfs2, hc2, hgen⟩ := sql_named_ok_inv _ _ _ hg
  rw [hc] at hc2
  injection hc2 with h2
  subst h2
  subst hgen
  refine ⟨sfs.filter SqlField.isColumn, rfl, ?_, ?_, ?_⟩
  · simp only [generate]
    rw [filterMap_sql_eq]
  · simp only [generate]
    rw [filterMap_colIdent_eq]
    simp only [List.enum]
    rw [enumFrom_map_pair, List.map_map]
    rfl
  · simp only [generate]
    rw [List.map_map, filterMap_colIdent_eq]
    have h3 := List.enum_map_fst
      ((sfs.filter SqlField.isColumn).map SqlField.fieldIdent)
    rw [List.length_map] at h3
    exact h3

/-- C4 witness, at `{ a, b(default), c }`: extractions read index 0 into `a`
and index 1 into `c`, aligned with the column list `"[A],[C]"`. -/
theorem c4_column_extraction_alignment_witness :
    ∃ cols, cols = abcSfs.filter SqlField.isColumn ∧
      abcGenerated.sql_fields = String.intercalate "," (cols.map SqlField.sqlEntry) ∧
      abcGenerated.row_gets = cols.enum.map
        (fun p => RowGet.mk (SqlField.fieldIdent p.2)
          (SqlField.fieldIdent p.2).name p.1) ∧
      abcGenerated.row_gets.map RowGet.index = List.range cols.length :=
  c4_column_extraction_alignment ⟨"Abc", 2⟩ [fieldA, fieldB, fieldC] abcSfs
    abcGenerated rfl rfl

/-- C5 counterexample: for the record whose field directive is `(foo)`,
generation does fail attributed to `foo`'s span, but the diagnostic message
is "Expect `default`, `expr`, or `name`" — the keywords are backtick-quoted
— not the claimed "Expect default, expr, or name". -/
theorem c5_keyword_message_counterexample :
    sql fooInput = Except.error ⟨31, "Expect `default`, `expr`, or `name`"⟩ ∧
    ("Expect `default`, `expr`, or `name`" : String) ≠
      "Expect default, expr, or name" :=
  ⟨rfl, by decide⟩

/-- C5 (amended): for every field whose first recognized sql directive has a
leading keyword other than `default`, `expr`, `name` (all fields before it
classifying successfully), generation fails with the diagnostic
"Expect `default`, `expr`, or `name`" — keywords backtick-quoted —
attributed to the keyword's span, and no artifacts are produced. -/
theorem c5_unrecognized_keyword_error (tyName : Ident) (pre : List Field)
    (f : Field) (post : List Field) (skip : List Attribute) (a : Attribute)
    (rest : List Attribute) (kw : Ident)
    (hpre : ∀ p ∈ pre, ∃ sf, SqlField.new_from_field p = Except.ok sf)
    (hattrs : f.attrs = skip ++ a :: rest)
    (hskip : ∀ b ∈ skip, SqlAttr.try_new b = none)
    (hpath : String.intercalate "::" a.path = "sql" ∨
      String.intercalate "::" a.path = "sql_derive::sql")
    (hkw : a.tokens.keyword = some kw)
    (h1 : kw.name ≠ "default") (h2 : kw.name ≠ "expr") (h3 : kw.name ≠ "name") :
    sql ⟨tyName, Data.Struct (Fields.Named (pre ++ f :: post))⟩ =
      Except.error ⟨kw.span, "Expect `default`, `expr`, or `name`"⟩ := by
  have hparse : SqlAttr.parseTokens a.tokens =
      Except.error ⟨kw.span, "Expect `default`, `expr`, or `name`"⟩ := by
    cases t : a.tokens with
    | other sp => rw [t] at hkw; simp [AttrTokens.keyword] at hkw
    | bare k =>
        rw [t] at hkw
        simp only [AttrTokens.keyword] at hkw
        injection hkw with hk
        subst hk
        simp [SqlAttr.parseTokens, h1, h2, h3]
    | eqStr k s =>
        rw [t] at hkw
        simp only [AttrTokens.keyword] at hkw
        injection hkw with hk
        subst hk
        simp [SqlAttr.parseTokens, h1, h2, h3]
    | eqExpr k e psp =>
        rw [t] at hkw
        simp only [AttrTokens.keyword] at hkw
        injection hkw with hk
        subst hk
        simp [SqlAttr.parseTokens, h1, h2, h3]
  have htry : SqlAttr.try_new a =
      some (Except.error ⟨kw.span, "Expect `default`, `expr`, or `name`"⟩) := by
    rcases hpath with hp | hp <;> simp [SqlAttr.try_new, hp, hparse]
  have hhead : (f.attrs.filterMap SqlAttr.try_new).head? =
      some (Except.error ⟨kw.span, "Expect `default`, `expr`, or `name`"⟩) := by
    rw [hattrs, List.filterMap_append, List.filterMap_eq_nil_iff.mpr hskip,
      List.nil_append, List.filterMap_cons, htry]
    rfl
  have hf : SqlField.new_from_field f =
      Except.error ⟨kw.span, "Expect `default`, `expr`, or `name`"⟩ := by
    unfold SqlField.new_from_field
    rw [hhead]
  have hcl := classifyFields_append_error pre f post _ hpre hf
  simp [sql, Struct.from_derive_input, hcl]

/-- C5 amended-claim witness, at the record whose field directive is
`(foo)`. -/
theorem c5_unrecognized_keyword_error_witness :
    sql fooInput = Except.error ⟨31, "Expect `default`, `expr`, or `name`"⟩ :=
  c5_unrecognized_keyword_error ⟨"Bad", 3⟩ [] fooField [] []
    ⟨["sql"], .bare ⟨"foo", 31⟩⟩ [] ⟨"foo", 31⟩
    (fun p hp => absurd hp (List.not_mem_nil p)) rfl
    (fun b hb => absurd hb (List.not_mem_nil b)) (Or.inl rfl) rfl
    (by decide) (by decide) (by decide)

/-- C6: a derive input that is not a struct with named fields (an enum, a
union, a tuple struct or a unit struct) fails with an error attributed to
the type name's span whose message states that only (named-field) structs
are supported, and no artifacts are produced. -/
theorem c6_unsupported_shape (input : DeriveInput)
    (h : ∀ fs, input.data ≠ Data.Struct (Fields.Named fs)) :
    ∃ msg, sql input = Except.error ⟨input.ident.span, msg⟩ ∧
      (msg = "Only struct are supported by sql derive." ∨
       msg = "Only struct with named fields are supported by sql derive.") := by
  cases hd : input.data with
  | Struct fs =>
      cases fs with
      | Named fields => exact absurd hd (h fields)
      | Unnamed n =>
          exact ⟨_, by simp [sql, Struct.from_derive_input, hd], Or.inr rfl⟩
      | Unit =>
          exact ⟨_, by simp [sql, Struct.from_derive_input, hd], Or.inr rfl⟩
  | Enum => exact ⟨_, by simp [sql, Struct.from_derive_input, hd], Or.inl rfl⟩
  | Union => exact ⟨_, by simp [sql, Struct.from_derive_input, hd], Or.inl rfl⟩

/-- C6 witness, at an enum input. -/
theorem c6_unsupported_shape_witness :
    ∃ msg, sql enumInput = Except.error ⟨4, msg⟩ ∧
      (msg = "Only struct are supported by sql derive." ∨
       msg = "Only struct with named fields are supported by sql derive.") :=
  c6_unsupported_shape enumInput (fun _fs h => Data.noConfusion h)

/-- C7: a field whose consulted directive is `(default)` is classified as a
computed field whose spliced expression is `Default::default()`: it
contributes no column-list entry and no positional extraction, its
assignment is emitted among the computed splices, and in every successfully
constructed record its value is that splice, independent of the row. -/
theorem c7_default_directive (f : Field)
    (hf : (f.attrs.filterMap SqlAttr.try_new).head? =
      some (Except.ok SqlAttr.Default)) :
    SqlField.new_from_field f = Except.ok (SqlField.Expr f.ident defaultExprSrc) ∧
    SqlField.sql (SqlField.Expr f.ident defaultExprSrc) = none ∧
    SqlField.colIdent (SqlField.Expr f.ident defaultExprSrc) = none ∧
    SqlField.exprGet (SqlField.Expr f.ident defaultExprSrc) =
      some ⟨f.ident, defaultExprSrc⟩ ∧
    (∀ {α : Type} (tyName : Ident) (pre post : List Field) (g : Generated)
       (row : Nat → Except String α) (l : List (String × FieldValue α)),
       sql ⟨tyName, Data.Struct (Fields.Named (pre ++ f :: post))⟩ = Except.ok g →
       Generated.fromRow g row = Except.ok l →
       (f.ident.name, FieldValue.spliced defaultExprSrc) ∈ l) := by
  have h1 : SqlField.new_from_field f =
      Except.ok (SqlField.Expr f.ident defaultExprSrc) := by
    unfold SqlField.new_from_field
    rw [hf]
  refine ⟨h1, rfl, rfl, rfl, ?_⟩
  intro α tyName pre post g row l hg hrow
  obtain ⟨sfs, hc, hgen⟩ := sql_named_ok_inv _ _ _ hg
  obtain ⟨spre, sf, spost, hsplit, _, hf2, _⟩ :=
    classifyFields_append_ok pre f post sfs hc
  rw [h1] at hf2
  injection hf2 with h2
  have hmem : (⟨f.ident, defaultExprSrc⟩ : ExprGet) ∈ sfs.filterMap SqlField.exprGet := by
    rw [List.mem_filterMap]
    exact ⟨sf, by simp [hsplit], by rw [← h2]; rfl⟩
  subst hgen
  unfold Generated.fromRow at hrow
  cases he : evalRowGets row (generate tyName sfs).row_gets with
  | error e => rw [he] at hrow; cases hrow
  | ok lcols =>
      rw [he] at hrow
      injection hrow with h3
      subst h3
      refine List.mem_append_right _ ?_
      rw [List.mem_map]
      exact ⟨⟨f.ident, defaultExprSrc⟩, hmem, rfl⟩

/-- C7 witness, at field `b` of `{ a, b(default), c }` with the constant
unit row. -/
theorem c7_default_directive_witness :
    SqlField.new_from_field fieldB =
      Except.ok (SqlField.Expr fieldB.ident defaultExprSrc) ∧
    (fieldB.ident.name, FieldValue.spliced defaultExprSrc) ∈
      ([("a", FieldValue.fromRow ()), ("c", FieldValue.fromRow ()),
        ("b", FieldValue.spliced defaultExprSrc)] : List (String × FieldValue Unit)) :=
  ⟨(c7_default_directive fieldB rfl).1,
   (c7_default_directive fieldB rfl).2.2.2.2 ⟨"Abc", 2⟩ [fieldA] [fieldC]
     abcGenerated (fun _ => Except.ok ()) _ rfl rfl⟩

/-- C8: in the generated deserializer, when every assigned index reads
successfully the whole record is produced with one entry per field; and the
first column extraction that fails aborts construction, returning (not
throwing) an error that wraps the underlying message with the failing
field's identifier — fail-fast, no partial record. -/
theorem c8_from_row_fail_fast {α : Type} (input : DeriveInput) (g : Generated)
    (row : Nat → Except String α)
    (hg : sql input = Except.ok g) :
    ((∀ rg ∈ g.row_gets, ∃ v, row rg.index = Except.ok v) →
      ∃ l, Generated.fromRow g row = Except.ok l ∧
        l.map Prod.fst = g.row_gets.map (fun rg => rg.ident.name) ++
          g.expr_gets.map (fun eg => eg.ident.name)) ∧
    (∀ pre rg post e, g.row_gets = pre ++ rg :: post →
      (∀ r ∈ pre, ∃ v, row r.index = Except.ok v) →
      row rg.index = Except.error e →
      Generated.fromRow g row =
        Except.error (formatReadError rg.ident.name e)) := by
  obtain ⟨s, _, hgen⟩ := sql_ok_inv input g hg
  constructor
  · intro hok
    obtain ⟨l, hl, hmap⟩ := evalRowGets_ok row g.row_gets hok
    refine ⟨l ++ g.expr_gets.map
      (fun eg => (eg.ident.name, FieldValue.spliced eg.expr)), ?_, ?_⟩
    · unfold Generated.fromRow
      rw [hl]
    · rw [List.map_append, hmap, List.map_map]
      rfl
  · intro pre rg post e hsplit hpre he
    have hlit : rg.fieldLit = rg.ident.name := by
      refine row_gets_fieldLit s.name s.fields rg ?_
      rw [← hgen, hsplit]
      simp
    have := evalRowGets_error row pre rg post e hpre he
    unfold Generated.fromRow
    rw [hsplit, this, hlit]

/-- C8 witness, at `{ a, b(default), c }`: the all-ok unit row yields the
full record, and a row failing at index 1 aborts with the error naming
field `c`. -/
theorem c8_from_row_fail_fast_witness :
    (∃ l, Generated.fromRow abcGenerated (fun _ => (Except.ok () : Except String Unit)) =
        Except.ok l ∧
      l.map Prod.fst = abcGenerated.row_gets.map (fun rg => rg.ident.name) ++
        abcGenerated.expr_gets.map (fun eg => eg.ident.name)) ∧
    Generated.fromRow abcGenerated
        (fun i => if i = 1 then (Except.error "boom" : Except String Unit)
          else Except.ok ()) =
      Except.error (formatReadError "c" "boom") :=
  ⟨(c8_from_row_fail_fast abcInput abcGenerated
      (fun _ => Except.ok ()) rfl).1 (fun rg _ => ⟨(), rfl⟩),
   (c8_from_row_fail_fast abcInput abcGenerated
      (fun i => if i = 1 then Except.error "boom" else Except.ok ()) rfl).2
     [⟨⟨"a", 20⟩, "a", 0⟩] ⟨⟨"c", 23⟩, "c", 1⟩ [] "boom" rfl
     (fun r hr => ⟨(), by rw [List.mem_singleton] at hr; rw [hr]; rfl⟩) rfl⟩

/-- C9: only the first recognized sql directive on a field is consulted:
classification of a field whose attributes are some skipped
(unrecognized-path) attributes, a first recognized attribute, and anything
after it equals classification with the first recognized attribute alone —
the rest, malformed or not, are silently ignored. -/
theorem c9_first_directive_wins (ident : Ident) (skip : List Attribute)
    (a : Attribute) (rest : List Attribute)
    (hskip : ∀ b ∈ skip, SqlAttr.try_new b = none)
    (ha : SqlAttr.try_new a ≠ none) :
    SqlField.new_from_field ⟨ident, skip ++ a :: rest⟩ =
      SqlField.new_from_field ⟨ident, [a]⟩ := by
  obtain ⟨r, hr⟩ := Option.ne_none_iff_exists'.mp ha
  have hL : (List.filterMap SqlAttr.try_new (skip ++ a :: rest)).head? = some r := by
    rw [List.filterMap_append, List.filterMap_eq_nil_iff.mpr hskip,
      List.nil_append, List.filterMap_cons, hr]
    rfl
  have hR : (List.filterMap SqlAttr.try_new [a]).head? = some r := by
    rw [List.filterMap_cons, hr]
    rfl
  simp only [SqlField.new_from_field]
  rw [hL, hR]

/-- C9 witness: a field carrying a valid `name = "UID"` directive followed
by the malformed `(foo)` classifies exactly as with the first directive
alone — successfully, the malformed second directive raising no error. -/
theorem c9_first_directive_wins_witness :
    SqlField.new_from_field twoAttrField =
      SqlField.new_from_field ⟨⟨"y", 43⟩, [goodAttr]⟩ ∧
    SqlField.new_from_field twoAttrField =
      Except.ok (SqlField.SqlNamed ⟨"y", 43⟩ ⟨"UID", 41⟩) :=
  ⟨c9_first_directive_wins ⟨"y", 43⟩ [] goodAttr [badAttr]
    (fun b hb => absurd hb (List.not_mem_nil b))
    (fun h => Option.noConfusion h), rfl⟩

/-- C10: an attribute whose path renders as `sql_derive::sql` is recognized
and parsed exactly like one whose path is `sql`, and an attribute with any
other path is skipped (`try_new` yields none). -/
theorem c10_attr_path_recognition (t : AttrTokens) (p : List String)
    (h1 : String.intercalate "::" p ≠ "sql")
    (h2 : String.intercalate "::" p ≠ "sql_derive::sql") :
    SqlAttr.try_new ⟨["sql_derive", "sql"], t⟩ = some (SqlAttr.parseTokens t) ∧
    SqlAttr.try_new ⟨["sql"], t⟩ = some (SqlAttr.parseTokens t) ∧
    SqlAttr.try_new ⟨["sql_derive", "sql"], t⟩ = SqlAttr.try_new ⟨["sql"], t⟩ ∧
    SqlAttr.try_new ⟨p, t⟩ = none := by
  refine ⟨rfl, rfl, rfl, ?_⟩
  simp only [SqlAttr.try_new]
  rw [if_neg h1, if_neg h2]

/-- C10 witness: with `(default)` tokens, `sql_derive::sql` parses like
`sql`, and the path `serde` is skipped. -/
theorem c10_attr_path_recognition_witness :
    SqlAttr.try_new ⟨["sql_derive", "sql"], .bare ⟨"default", 70⟩⟩ =
      some (SqlAttr.parseTokens (.bare ⟨"default", 70⟩)) ∧
    SqlAttr.try_new ⟨["sql"], .bare ⟨"default", 70⟩⟩ =
      some (SqlAttr.parseTokens (.bare ⟨"default", 70⟩)) ∧
    SqlAttr.try_new ⟨["sql_derive", "sql"], .bare ⟨"default", 70⟩⟩ =
      SqlAttr.try_new ⟨["sql"], .bare ⟨"default", 70⟩⟩ ∧
    SqlAttr.try_new ⟨["serde"], .bare ⟨"default", 70⟩⟩ = none :=
  c10_attr_path_recognition (.bare ⟨"default", 70⟩) ["serde"]
    (by decide) (by decide)

end MssqlClientDerive
